import Mathlib

/-!
Verification development for the dangerous-ai repository: shallow embedding of
the bootstrap (setup.sh, setup.ps1), provisioning (setup.ts) and publishing
(publish.ts) scripts, together with theorems settling the spec's claims.
-/

set_option autoImplicit false
set_option maxRecDepth 8192

namespace DangerousAI

/-! ### Substring machinery

The scripts test for markers with JavaScript `String.includes` and PowerShell
`Select-String`; both are modelled as a plain substring test on the file
content, via character lists. -/

def listPrefixB : List Char → List Char → Bool
  | [], _ => true
  | _ :: _, [] => false
  | a :: as, b :: bs => a == b && listPrefixB as bs

def listInfixB (p : List Char) : List Char → Bool
  | [] => p.isEmpty
  | b :: bs => listPrefixB p (b :: bs) || listInfixB p bs

def strContains (s pat : String) : Bool := listInfixB pat.toList s.toList

/-- Number of positions of `s` at which `pat` occurs as a substring. -/
def countOcc (pat : List Char) : List Char → Nat
  | [] => if pat.isEmpty then 1 else 0
  | c :: cs => (if listPrefixB pat (c :: cs) then 1 else 0) + countOcc pat cs

def strCount (s pat : String) : Nat := countOcc pat.toList s.toList

/-! ### Shell profile configuration (Provisioning Stage)

`none` models a profile file that does not exist; `some c` a file with content
`c`.  Each function returns the file content after the run. -/

/-- Block appended to ~/.zshrc by configureProfiles in scripts/setup.ts (macOS
branch); the template literal starts and ends with a newline. -/
def zshProfileContent : String :=
  "\n# Initialize mise\neval \"$(mise activate zsh)\"\n\n# Initialize starship prompt\neval \"$(starship init zsh)\"\n"

/-- configureProfiles from scripts/setup.ts, macOS/zsh branch: create the file
with the block when absent, append the block when the marker substring
"starship init" is missing, otherwise leave the content untouched. -/
def configureZshrc (zshrc : Option String) : String :=
  match zshrc with
  | none => zshProfileContent
  | some content =>
    if strContains content "starship init" then content
    else content ++ zshProfileContent

/-- Profile block of scripts/setup.ps1 (here-string, no surrounding newlines). -/
def psProfileContent : String :=
  "# Initialize mise\nInvoke-Expression (& mise activate pwsh)\n\n# Initialize starship prompt\nInvoke-Expression (&starship init powershell)"

/-- What Add-Content appends to an existing profile in scripts/setup.ps1: a
leading newline, the block, and the trailing line terminator (line terminators
are modelled as a bare newline). -/
def psAppendBlock : String := "\n" ++ psProfileContent ++ "\n"

/-- PowerShell profile configuration from scripts/setup.ps1: Out-File creates
the file when absent; Add-Content appends the block when no line matches
"starship init"; otherwise nothing is written. -/
def configurePwshProfile (profileFile : Option String) : String :=
  match profileFile with
  | none => psProfileContent ++ "\n"
  | some content =>
    if strContains content "starship init" then content
    else content ++ psAppendBlock

/-- Profile block of the classic-PowerShell setup variant (src/unnamed/part_001). -/
def profileContent001 : String :=
  "# Add bun global bin to PATH\n$bunBin = \"$env:USERPROFILE\\.bun\\bin\"\nif ((Test-Path $bunBin) -and ($env:PATH -notlike \"*$bunBin*\")) \x7b\n    $env:PATH = \"$bunBin;$env:PATH\"\n\x7d\n\n# Initialize mise\nInvoke-Expression (& mise activate pwsh)\n\n# Initialize starship prompt\nInvoke-Expression (&starship init powershell)"

/-- bun PATH snippet of src/unnamed/part_001 (here-string starting with a blank line). -/
def bunPathSnippet001 : String :=
  "\n# Add bun global bin to PATH\n$bunBin = \"$env:USERPROFILE\\.bun\\bin\"\nif ((Test-Path $bunBin) -and ($env:PATH -notlike \"*$bunBin*\")) \x7b\n    $env:PATH = \"$bunBin;$env:PATH\"\n\x7d"

/-- Profile configuration of src/unnamed/part_001: after the "starship init"
check (which may append the full block), the ".bun\bin" check re-reads the
file as just updated and may append the bun PATH snippet. -/
def configurePwshProfile001 (profileFile : Option String) : String :=
  match profileFile with
  | none => profileContent001 ++ "\n"
  | some content =>
    let afterStarship :=
      if strContains content "starship init" then content
      else content ++ ("\n" ++ profileContent001 ++ "\n")
    if strContains afterStarship ".bun\\bin" then afterStarship
    else afterStarship ++ (bunPathSnippet001 ++ "\n")

/-- Occurrences of the marker "starship init" in an optional profile file. -/
def markerCountOpt (f : Option String) : Nat :=
  match f with
  | none => 0
  | some c => strCount c "starship init"

/-- State of the zsh profile file after `n` runs of configureProfiles. -/
def configureZshrcIter : Nat → Option String → Option String
  | 0, f => f
  | n + 1, f => some (configureZshrc (configureZshrcIter n f))

/-- State of a PowerShell profile file after `n` runs of setup.ps1's profile step. -/
def configurePwshIter : Nat → Option String → Option String
  | 0, f => f
  | n + 1, f => some (configurePwshProfile (configurePwshIter n f))

/-! ### Provisioning Stage: mise tools and bun globals (scripts/setup.ts) -/

/-- The config.json shape consumed by scripts/setup.ts. -/
structure Config where
  mise_tools : List String
  bun_global : List String

/-- `tool.replace(/@.*/, "")`: everything before the first `@`. -/
def toolNameOf (tool : String) : String :=
  String.mk (tool.toList.takeWhile (fun c => c != '@'))

/-- Presence test of installMiseTools: `mise list <tool>` output must be
nonempty and free of "(missing)"; `none` models the command throwing. -/
def misePresent (miseList : String → Option String) (toolName : String) : Bool :=
  match miseList toolName with
  | none => false
  | some out => out != "" && !strContains out "(missing)"

/-- Tools for which installMiseTools issues `mise install` / `mise use -g`. -/
def miseInstallCmds (tools : List String) (miseList : String → Option String) :
    List String :=
  tools.filter (fun t => !misePresent miseList (toolNameOf t))

/-- JavaScript `str.split(sep)` for a one-character separator, on char lists. -/
def splitOnChar (sep : Char) : List Char → List (List Char)
  | [] => [[]]
  | c :: cs =>
    let r := splitOnChar sep cs
    if c == sep then [] :: r
    else
      match r with
      | [] => [[c]]
      | h :: t => (c :: h) :: t

/-- The last element of a split, with a default for the impossible empty case. -/
def lastSegment (d : List Char) : List (List Char) → List Char
  | [] => d
  | [x] => x
  | _ :: x :: xs => lastSegment d (x :: xs)

/-- `pkg.split("/").pop()`: the command name of a bun global package. -/
def cmdNameOf (pkg : String) : String :=
  String.mk (lastSegment [] (splitOnChar '/' pkg.toList))

/-- Packages for which installBunGlobals issues `bun install -g`. -/
def bunInstallCmds (pkgs : List String) (cmdExists : String → Bool) : List String :=
  pkgs.filter (fun p => !cmdExists (cmdNameOf p))

/-! ### Bootstrap Stage: scoop and brew package loops -/

/-- Per-package outcome of a bootstrap install loop. -/
inductive PkgEvent
  | alreadyInstalled (pkg : String)
  | installAttempted (pkg : String) (ok : Bool)
  deriving DecidableEq, Repr

/-- The config.json package lists consumed by scripts/setup.ps1:
`$packages = @(); += common.scoop; += windows.scoop; += fonts.scoop`. -/
structure ScoopConfig where
  common : List String
  windowsPkgs : List String
  fonts : List String

/-- The effective install plan of scripts/setup.ps1: concatenation of the
category lists, in order, with no deduplication. -/
def buildPackages (cfg : ScoopConfig) : List String :=
  cfg.common ++ cfg.windowsPkgs ++ cfg.fonts

/-- Packages for which the scripts/setup.ps1 loop issues `scoop install`:
`$installedApps` is sampled once before the loop. -/
def scoopInstallCmds (pkgs : List String) (installedApps : List String) :
    List String :=
  pkgs.filter (fun p => !installedApps.contains p)

/-- The scripts/setup.ps1 install loop: `scoop install` failures surface as
output and the loop continues, so every package produces exactly one event. -/
def scoopInstallLoop (installedApps : List String) (installOk : String → Bool) :
    List String → List PkgEvent
  | [] => []
  | p :: rest =>
    (if installedApps.contains p then PkgEvent.alreadyInstalled p
     else PkgEvent.installAttempted p (installOk p)) ::
      scoopInstallLoop installedApps installOk rest

/-- A brew install loop of scripts/setup.sh, which runs under `set -e`: a
failing `brew install` terminates the whole script, so later packages are
never examined.  Returns the events produced and whether the loop completed. -/
def brewInstallLoop (brewHas brewOk : String → Bool) :
    List String → List PkgEvent × Bool
  | [] => ([], true)
  | p :: rest =>
    if brewHas p then
      let r := brewInstallLoop brewHas brewOk rest
      (PkgEvent.alreadyInstalled p :: r.1, r.2)
    else if brewOk p then
      let r := brewInstallLoop brewHas brewOk rest
      (PkgEvent.installAttempted p true :: r.1, r.2)
    else ([PkgEvent.installAttempted p false], false)

/-! ### Provisioning Stage: sub-step sequencing (main of scripts/setup.ts) -/

/-- Per-tool outcome of installMiseTools. -/
inductive MiseEvent
  | alreadyInstalled (toolName : String)
  | installed (toolName : String)
  | warnFailed (tool : String)
  deriving DecidableEq, Repr

/-- installMiseTools from scripts/setup.ts: every per-tool install failure is
caught inside the loop (a warning is printed), so the function processes every
tool and never throws.  `miseInstallOk t` models the install-then-activate
sequence for `t` succeeding. -/
def installMiseToolsRun (tools : List String) (miseList : String → Option String)
    (miseInstallOk : String → Bool) : List MiseEvent :=
  tools.map (fun t =>
    if misePresent miseList (toolNameOf t) then MiseEvent.alreadyInstalled (toolNameOf t)
    else if miseInstallOk t then MiseEvent.installed (toolNameOf t)
    else MiseEvent.warnFailed t)

/-- installBunGlobals from scripts/setup.ts: `await $\`bun install -g\`` is not
wrapped in try/catch, so the first failing install throws out of the function;
`Except.error pkg` models that throw. -/
def installBunGlobalsRun (cmdExists bunInstallOk : String → Bool) :
    List String → Except String (List String)
  | [] => Except.ok []
  | p :: rest =>
    if cmdExists (cmdNameOf p) then installBunGlobalsRun cmdExists bunInstallOk rest
    else if bunInstallOk p then
      match installBunGlobalsRun cmdExists bunInstallOk rest with
      | Except.ok l => Except.ok (p :: l)
      | Except.error e => Except.error e
    else Except.error p

/-- main from scripts/setup.ts: sub-steps are awaited in sequence with no
per-step error handling; `main().catch` exits the process, so an uncaught
throw in one sub-step skips all later sub-steps.  Returns the names of the
sub-steps that ran to completion. -/
def setupMainSteps (cfg : Config) (miseList : String → Option String)
    (miseInstallOk cmdExists bunInstallOk : String → Bool) : List String :=
  let _miseEvents := installMiseToolsRun cfg.mise_tools miseList miseInstallOk
  match installBunGlobalsRun cmdExists bunInstallOk cfg.bun_global with
  | Except.error _ => ["installMiseTools"]
  | Except.ok _ =>
    ["installMiseTools", "installBunGlobals", "configureProfiles", "showSummary",
     "setupSSHKey"]

/-! ### Manifest loading (C6) -/

inductive SshEvent
  | existingKeyFound
  | generatedKey (email : String)
  | skippedNoEmail
  | skippedDeclined
  | displayedPubKey
  deriving DecidableEq, Repr

/-- Opt-in test of setupSSHKey:
`response === "" || response.toLowerCase().startsWith("y")` — the lowercased
response must start with the character of "y". -/
def sshOptIn (response : String) : Bool :=
  response == "" || listPrefixB "y".toList (response.toList.map Char.toLower)

/-- setupSSHKey from scripts/setup.ts.  `pubKeyExists` is the existence test on
the fixed path ~/.ssh/id_ed25519.pub; `email` is the label the user would
supply at the prompt (only read in the generation branch).  After a successful
generation the public key exists and is displayed. -/
def setupSSHKeyRun (response : String) (pubKeyExists : Bool) (email : String) :
    List SshEvent :=
  if sshOptIn response then
    if pubKeyExists then [SshEvent.existingKeyFound, SshEvent.displayedPubKey]
    else if email != "" then [SshEvent.generatedKey email, SshEvent.displayedPubKey]
    else [SshEvent.skippedNoEmail]
  else [SshEvent.skippedDeclined]

/-- Whether a run of setupSSHKey invoked ssh-keygen. -/
def invokesKeygen (events : List SshEvent) : Bool :=
  events.any (fun e =>
    match e with
    | SshEvent.generatedKey _ => true
    | _ => false)

/-! ### Project scaffolding (C8) -/

/-- Modelled from the spec: the Scaffolding Tool implementation
(packages/cli/src/aftr/commands/init.py) is not among the provided sources,
only its documentation.  "The project name is normalized (hyphens →
underscores) for the source module directory name only." -/
def normalizeModuleName (name : String) : String :=
  String.mk (name.toList.map (fun c => if c = '-' then '_' else c))

/-- Modelled from the spec: the directory tree `init(name)` creates — the
top-level project directory, data/, notebooks/, outputs/, and the source
module directory under src/ named with the normalized name (per the spec and
the repository README's project-layout listing). -/
def initTree (name : String) : List (List String) :=
  [[name],
   [name, "data"],
   [name, "notebooks"],
   [name, "outputs"],
   [name, "src", normalizeModuleName name]]

/-! ### Publish CLI (scripts/publish.ts) -/

def isWhitespaceChar (c : Char) : Bool :=
  c == ' ' || c == '\t' || c == '\n' || c == '\r'

/-- checkGitStatus: `git status --porcelain` must succeed and its output must
trim to the empty string, i.e. consist of whitespace only; `none` models the
command throwing. -/
def checkGitStatus (statusOut : Option String) : Bool :=
  match statusOut with
  | none => false
  | some s => s.toList.all isWhitespaceChar

structure PublishOutcome where
  exitCode : Nat
  versionWritten : Bool
  deriving DecidableEq, Repr

/-- main from scripts/publish.ts: usage exit for no arguments, exit 1 for a
bump type outside patch/minor/major, exit 1 for an unclean tree — all before
updateVersion touches pyproject.toml.  On the success path the version is
written and the git commit/tag/push commands run; `gitOpsOk` models them all
succeeding (a failure there is caught by `main().catch`, which exits 1, with
the version already written). -/
def publishMain (args : List String) (statusOut : Option String)
    (gitOpsOk : Bool) : PublishOutcome :=
  match args with
  | [] => ⟨1, false⟩
  | bumpType :: _ =>
    if !(["patch", "minor", "major"].contains bumpType) then ⟨1, false⟩
    else if !checkGitStatus statusOut then ⟨1, false⟩
    else if gitOpsOk then ⟨0, true⟩ else ⟨1, true⟩

theorem listInfixB_append_left (p b : List Char) (h : listInfixB p b = true) :
    ∀ c : List Char, listInfixB p (c ++ b) = true := by
  intro c
  induction c with
  | nil => simpa using h
  | cons x xs ih => simp [listInfixB, ih]

theorem listPrefixB_stops (ch : Char) (bs : List Char) :
    ∀ (s p : List Char), ch ∉ p → listPrefixB p (s ++ ch :: bs) = listPrefixB p s := by
  intro s
  induction s with
  | nil =>
    intro p hp
    match p with
    | [] => rfl
    | a :: as =>
      have ha : (a == ch) = false := by
        apply beq_eq_false_iff_ne.mpr
        intro hcontra
        exact hp (hcontra ▸ List.mem_cons_self a as)
      simp [listPrefixB, ha]
  | cons x xs ih =>
    intro p hp
    match p with
    | [] => rfl
    | a :: as =>
      have has : ch ∉ as := fun h => hp (List.mem_cons_of_mem a h)
      simp only [List.cons_append, listPrefixB, List.append_eq, ih as has]

theorem countOcc_append (ch : Char) (bs : List Char) (p : List Char)
    (hp : p ≠ []) (hch : ch ∉ p) :
    ∀ c, countOcc p (c ++ ch :: bs) = countOcc p c + countOcc p (ch :: bs) := by
  intro c
  induction c with
  | nil =>
    have hpe : p.isEmpty = false := by
      cases p with
      | nil => exact absurd rfl hp
      | cons a as => rfl
    simp [countOcc, hpe]
  | cons x xs ih =>
    have hpre : listPrefixB p ((x :: xs) ++ ch :: bs) = listPrefixB p (x :: xs) :=
      listPrefixB_stops ch bs (x :: xs) p hch
    simp only [List.cons_append] at hpre ⊢
    simp only [countOcc, hpre, ih]
    omega

theorem listInfixB_iff_countOcc_pos (p : List Char) (hp : p ≠ []) :
    ∀ s, listInfixB p s = true ↔ 0 < countOcc p s := by
  intro s
  induction s with
  | nil =>
    have hpe : p.isEmpty = false := by
      cases p with
      | nil => exact absurd rfl hp
      | cons a as => rfl
    simp [listInfixB, countOcc, hpe]
  | cons c cs ih =>
    simp only [listInfixB, countOcc, Bool.or_eq_true, ih]
    cases h : listPrefixB p (c :: cs) <;> simp [h]

theorem strCount_pos_of_contains (s pat : String) (hp : pat.toList ≠ [])
    (h : strContains s pat = true) : 0 < strCount s pat :=
  (listInfixB_iff_countOcc_pos pat.toList hp s.toList).mp h

theorem strCount_eq_zero_of_not_contains (s pat : String) (hp : pat.toList ≠ [])
    (h : strContains s pat = false) : strCount s pat = 0 := by
  by_contra hc
  have : 0 < strCount s pat := Nat.pos_of_ne_zero hc
  have := (listInfixB_iff_countOcc_pos pat.toList hp s.toList).mpr this
  rw [strContains] at h
  rw [this] at h
  exact Bool.true_eq_false ▸ h.symm ▸ rfl

theorem string_toList_append (s t : String) : (s ++ t).toList = s.toList ++ t.toList := by
  simp [String.toList]

theorem strCount_append_block (c block m : String) (hm : m.toList ≠ [])
    (hnl : '\n' ∉ m.toList) (hhead : ∃ bs, block.toList = '\n' :: bs) :
    strCount (c ++ block) m = strCount c m + strCount block m := by
  obtain ⟨bs, hb⟩ := hhead
  rw [strCount, string_toList_append, hb,
      countOcc_append '\n' bs m.toList hm hnl c.toList]
  rw [strCount, strCount, hb]

theorem strContains_append_block (c block m : String)
    (h : listInfixB m.toList block.toList = true) :
    strContains (c ++ block) m = true := by
  rw [strContains, string_toList_append]
  exact listInfixB_append_left _ _ h c.toList

/-! ### Profile configuration lemmas -/

theorem not_contains_of_ne_true {c m : String}
    (h : ¬ strContains c m = true) : strContains c m = false := by
  cases hx : strContains c m
  · rfl
  · exact absurd hx h

theorem configureZshrc_contains (f : Option String) :
    strContains (configureZshrc f) "starship init" = true := by
  match f with
  | none => decide
  | some c =>
    by_cases h : strContains c "starship init" = true
    · simp [configureZshrc, h]
    · simp only [configureZshrc, not_contains_of_ne_true h, Bool.false_eq_true,
        if_false]
      exact strContains_append_block c zshProfileContent _ (by decide)

theorem configureZshrc_idem (f : Option String) :
    configureZshrc (some (configureZshrc f)) = configureZshrc f := by
  show (if strContains (configureZshrc f) "starship init" then configureZshrc f
        else configureZshrc f ++ zshProfileContent) = configureZshrc f
  rw [configureZshrc_contains f]
  rfl

theorem configureZshrc_count (f : Option String) :
    strCount (configureZshrc f) "starship init" = max (markerCountOpt f) 1 := by
  match f with
  | none =>
    show strCount zshProfileContent "starship init" = max 0 1
    decide
  | some c =>
    by_cases h : strContains c "starship init" = true
    · have hpos : 0 < strCount c "starship init" :=
        strCount_pos_of_contains c _ (by decide) h
      simp only [configureZshrc, h, if_true, markerCountOpt]
      omega
    · have hz : strCount c "starship init" = 0 :=
        strCount_eq_zero_of_not_contains c _ (by decide) (not_contains_of_ne_true h)

      simp only [configureZshrc, not_contains_of_ne_true h, Bool.false_eq_true,
        if_false, markerCountOpt]
      rw [strCount_append_block c zshProfileContent _ (by decide) (by decide)
          ⟨zshProfileContent.toList.tail, by decide⟩, hz]
      have hb : strCount zshProfileContent "starship init" = 1 := by decide
      omega

theorem configureZshrcIter_count (n : Nat) (f : Option String) :
    markerCountOpt (configureZshrcIter (n + 1) f) = max (markerCountOpt f) 1 := by
  induction n with
  | zero => exact configureZshrc_count f
  | succ k ih =>
    show strCount (configureZshrc (configureZshrcIter (k + 1) f)) "starship init" = _
    rw [configureZshrc_count (configureZshrcIter (k + 1) f), ih]
    omega

theorem configurePwshProfile_contains (f : Option String) :
    strContains (configurePwshProfile f) "starship init" = true := by
  match f with
  | none => decide
  | some c =>
    by_cases h : strContains c "starship init" = true
    · simp [configurePwshProfile, h]
    · simp only [configurePwshProfile, not_contains_of_ne_true h, Bool.false_eq_true,
        if_false]
      exact strContains_append_block c psAppendBlock _ (by decide)

theorem configurePwshProfile_idem (f : Option String) :
    configurePwshProfile (some (configurePwshProfile f)) = configurePwshProfile f := by
  show (if strContains (configurePwshProfile f) "starship init" then configurePwshProfile f
        else configurePwshProfile f ++ psAppendBlock) = configurePwshProfile f
  rw [configurePwshProfile_contains f]
  rfl

theorem configurePwshProfile_count (f : Option String) :
    strCount (configurePwshProfile f) "starship init" = max (markerCountOpt f) 1 := by
  match f with
  | none =>
    show strCount (psProfileContent ++ "\n") "starship init" = max 0 1
    decide
  | some c =>
    by_cases h : strContains c "starship init" = true
    · have hpos : 0 < strCount c "starship init" :=
        strCount_pos_of_contains c _ (by decide) h
      simp only [configurePwshProfile, h, if_true, markerCountOpt]
      omega
    · have hz : strCount c "starship init" = 0 :=
        strCount_eq_zero_of_not_contains c _ (by decide) (not_contains_of_ne_true h)
      simp only [configurePwshProfile, not_contains_of_ne_true h, Bool.false_eq_true,
        if_false, markerCountOpt]
      rw [strCount_append_block c psAppendBlock _ (by decide) (by decide)
          ⟨psAppendBlock.toList.tail, by decide⟩, hz]
      have hb : strCount psAppendBlock "starship init" = 1 := by decide
      omega

theorem configurePwshIter_count (n : Nat) (f : Option String) :
    markerCountOpt (configurePwshIter (n + 1) f) = max (markerCountOpt f) 1 := by
  induction n with
  | zero => exact configurePwshProfile_count f
  | succ k ih =>
    show strCount (configurePwshProfile (configurePwshIter (k + 1) f)) "starship init" = _
    rw [configurePwshProfile_count (configurePwshIter (k + 1) f), ih]
    omega

/-- C1: Profile configuration is idempotent per file, in both the zsh model
(configureProfiles of scripts/setup.ts) and the PowerShell model (the profile
configuration of scripts/setup.ps1): an absent file is created containing the
initialization block; an existing file without the marker gets exactly one
copy of the block appended (raising the marker count by exactly one); a file
containing the marker is left unchanged; consequently the marker substring
appears at most once after any number of runs — exactly once when the file
started absent or marker-free. -/
theorem c1_profile_configuration_idempotent (f : Option String) (n : Nat) :
    (f = none → configureZshrc f = zshProfileContent ∧
      configurePwshProfile f = psProfileContent ++ "\n") ∧
    (∀ c, f = some c → strContains c "starship init" = false →
      (configureZshrc f = c ++ zshProfileContent ∧
        strCount (configureZshrc f) "starship init" =
          strCount c "starship init" + 1) ∧
      (configurePwshProfile f = c ++ psAppendBlock ∧
        strCount (configurePwshProfile f) "starship init" =
          strCount c "starship init" + 1)) ∧
    (∀ c, f = some c → strContains c "starship init" = true →
      configureZshrc f = c ∧ configurePwshProfile f = c) ∧
    (markerCountOpt f ≤ 1 → markerCountOpt (configureZshrcIter (n + 1) f) ≤ 1) ∧
    (markerCountOpt f = 0 → markerCountOpt (configureZshrcIter (n + 1) f) = 1) ∧
    (markerCountOpt f ≤ 1 → markerCountOpt (configurePwshIter (n + 1) f) ≤ 1) ∧
    (markerCountOpt f = 0 → markerCountOpt (configurePwshIter (n + 1) f) = 1) := by
  refine ⟨?_, ?_, ?_, ?_, ?_, ?_, ?_⟩
  · rintro rfl
    exact ⟨rfl, rfl⟩
  · rintro c rfl hc
    have hz : strCount c "starship init" = 0 :=
      strCount_eq_zero_of_not_contains c _ (by decide) hc
    refine ⟨⟨?_, ?_⟩, ?_, ?_⟩
    · simp [configureZshrc, hc]
    · rw [configureZshrc_count (some c)]
      show max (strCount c "starship init") 1 = _
      omega
    · simp [configurePwshProfile, hc]
    · rw [configurePwshProfile_count (some c)]
      show max (strCount c "starship init") 1 = _
      omega
  · rintro c rfl hc
    exact ⟨by simp [configureZshrc, hc], by simp [configurePwshProfile, hc]⟩
  · intro hle
    rw [configureZshrcIter_count n f]
    omega
  · intro hz
    rw [configureZshrcIter_count n f, hz]
    omega
  · intro hle
    rw [configurePwshIter_count n f]
    omega
  · intro hz
    rw [configurePwshIter_count n f, hz]
    omega

/-- Closed instance of `c1_profile_configuration_idempotent`: the file "export X"
has no marker, so one run of either profile step appends exactly one block and
three runs leave the marker count at one; an absent file is created with the
respective block. -/
theorem c1_profile_configuration_idempotent_witness :
    configureZshrc (some "export X") = "export X" ++ zshProfileContent ∧
    configurePwshProfile (some "export X") = "export X" ++ psAppendBlock ∧
    markerCountOpt (configureZshrcIter 3 (some "export X")) = 1 ∧
    markerCountOpt (configurePwshIter 3 (some "export X")) = 1 ∧
    configureZshrc none = zshProfileContent ∧
    configurePwshProfile none = psProfileContent ++ "\n" := by
  have h := c1_profile_configuration_idempotent (some "export X") 2
  have h0 := c1_profile_configuration_idempotent none 0
  exact ⟨(h.2.1 "export X" rfl (by decide)).1.1,
    (h.2.1 "export X" rfl (by decide)).2.1,
    h.2.2.2.2.1 (by decide), h.2.2.2.2.2.2 (by decide),
    (h0.1 rfl).1, (h0.1 rfl).2⟩

theorem string_append_empty (s : String) : s ++ "" = s :=
  String.ext (by simp)

theorem string_append_assoc (a b c : String) : (a ++ b) ++ c = a ++ (b ++ c) :=
  String.ext (by simp)

/-- C2: On any machine state — in particular one in which the Provisioning
Stage has just completed — a run of the Provisioning Stage issues install
commands only for tools and packages whose presence query reports them absent
(hence zero installs for the present ones), and the profile step applied to
the result of a previous profile run changes nothing, so no duplicate entry is
added to any shell profile file. -/
theorem c2_second_run_installs_nothing_present (cfg : Config)
    (miseList : String → Option String) (cmdExists : String → Bool)
    (zshrc pwshProfile : Option String) :
    (miseInstallCmds cfg.mise_tools miseList).all
      (fun t => !misePresent miseList (toolNameOf t)) = true ∧
    (bunInstallCmds cfg.bun_global cmdExists).all
      (fun p => !cmdExists (cmdNameOf p)) = true ∧
    configureZshrc (some (configureZshrc zshrc)) = configureZshrc zshrc ∧
    configurePwshProfile (some (configurePwshProfile pwshProfile)) =
      configurePwshProfile pwshProfile := by
  refine ⟨?_, ?_, configureZshrc_idem zshrc, configurePwshProfile_idem pwshProfile⟩
  · simp only [miseInstallCmds, List.all_eq_true]
    intro t ht
    exact (List.mem_filter.mp ht).2
  · simp only [bunInstallCmds, List.all_eq_true]
    intro p hp
    exact (List.mem_filter.mp hp).2

/-- C10: Profile configuration never deletes or rewrites existing profile
content: for every pre-existing file content, the content before the run is a
prefix of the content after the run, in the zsh model, the setup.ps1 model and
the src/unnamed/part_001 model. -/
theorem c10_profile_config_preserves_existing_content (c : String) :
    (∃ t, configureZshrc (some c) = c ++ t) ∧
    (∃ t, configurePwshProfile (some c) = c ++ t) ∧
    (∃ t, configurePwshProfile001 (some c) = c ++ t) := by
  refine ⟨?_, ?_, ?_⟩
  · show ∃ t,
      (if strContains c "starship init" then c else c ++ zshProfileContent) = c ++ t
    by_cases h : strContains c "starship init" = true
    · exact ⟨"", by rw [if_pos h, string_append_empty]⟩
    · exact ⟨zshProfileContent, by rw [if_neg h]⟩
  · show ∃ t,
      (if strContains c "starship init" then c else c ++ psAppendBlock) = c ++ t
    by_cases h : strContains c "starship init" = true
    · exact ⟨"", by rw [if_pos h, string_append_empty]⟩
    · exact ⟨psAppendBlock, by rw [if_neg h]⟩
  · show ∃ t,
      (let afterStarship :=
        if strContains c "starship init" then c
        else c ++ ("\n" ++ profileContent001 ++ "\n")
       if strContains afterStarship ".bun\\bin" then afterStarship
       else afterStarship ++ (bunPathSnippet001 ++ "\n")) = c ++ t
    by_cases h : strContains c "starship init" = true
    · simp only [if_pos h]
      by_cases h2 : strContains c ".bun\\bin" = true
      · exact ⟨"", by rw [if_pos h2, string_append_empty]⟩
      · exact ⟨bunPathSnippet001 ++ "\n", by rw [if_neg h2]⟩
    · simp only [if_neg h]
      by_cases h2 :
          strContains (c ++ ("\n" ++ profileContent001 ++ "\n")) ".bun\\bin" = true
      · exact ⟨"\n" ++ profileContent001 ++ "\n", by rw [if_pos h2]⟩
      · exact ⟨("\n" ++ profileContent001 ++ "\n") ++ (bunPathSnippet001 ++ "\n"),
          by rw [if_neg h2, string_append_assoc]⟩

/-- C3 counterexample: a package listed both in the common and in the windows
category appears twice in the effective install plan built by setup.ps1, and
with no package installed the loop issues `scoop install` for it twice. -/
theorem c3_counterexample_duplicate_across_categories :
    (buildPackages ⟨["dup"], ["dup"], []⟩).count "dup" = 2 ∧
    scoopInstallCmds (buildPackages ⟨["dup"], ["dup"], []⟩) [] = ["dup", "dup"] := by
  constructor <;> rfl

/-- C3 amended: the effective install plan is the plain concatenation of the
common, windows and fonts lists with no cross-category deduplication: an
identifier's multiplicity in the plan is the sum of its per-category
multiplicities — so under the manifest invariant (identifiers unique within a
category) it appears at most once per category listing it, but an identifier
occurring in several categories appears several times. -/
theorem c3_amended_plan_multiplicity (cfg : ScoopConfig) (p : String) :
    (buildPackages cfg).count p =
      cfg.common.count p + cfg.windowsPkgs.count p + cfg.fonts.count p ∧
    (cfg.common.count p ≤ 1 → cfg.windowsPkgs.count p ≤ 1 →
      cfg.fonts.count p ≤ 1 → (buildPackages cfg).count p ≤ 3) := by
  have hc : (buildPackages cfg).count p =
      cfg.common.count p + cfg.windowsPkgs.count p + cfg.fonts.count p := by
    simp only [buildPackages, List.count_append]
  exact ⟨hc, fun h1 h2 h3 => by omega⟩

/-- Closed instance of `c3_amended_plan_multiplicity` on three singleton
category lists. -/
theorem c3_amended_plan_multiplicity_witness :
    (buildPackages ⟨["git"], ["pwsh"], ["Hack-NF"]⟩).count "git" ≤ 3 :=
  (c3_amended_plan_multiplicity ⟨["git"], ["pwsh"], ["Hack-NF"]⟩ "git").2
    (by decide) (by decide) (by decide)

/-- C4 counterexample: in the macOS bootstrap, with packages "a" and "b" both
absent and the install of "a" failing, the brew loop running under `set -e`
terminates at "a": package "b" is never examined, so a single failed package
install aborts the whole bootstrap run. -/
theorem c4_counterexample_failed_install_aborts_sh :
    brewInstallLoop (fun _ => false) (fun p => !(p == "a")) ["a", "b"] =
      ([PkgEvent.installAttempted "a" false], false) := by
  rfl

/-- C4 amended: in the Windows bootstrap the package loop is failure-tolerant —
every listed package yields exactly one event no matter which installs fail —
but in the macOS bootstrap, which runs under `set -e`, the first failing brew
install aborts the run and the remaining packages are not processed. -/
theorem c4_amended_bootstrap_failure_policy (installedApps : List String)
    (installOk : String → Bool) (pkgs : List String)
    (brewHas brewOk : String → Bool) (p : String) (rest : List String) :
    (scoopInstallLoop installedApps installOk pkgs).length = pkgs.length ∧
    (brewHas p = false → brewOk p = false →
      brewInstallLoop brewHas brewOk (p :: rest) =
        ([PkgEvent.installAttempted p false], false)) := by
  constructor
  · induction pkgs with
    | nil => rfl
    | cons q qs ih => simp [scoopInstallLoop, ih]
  · intro h1 h2
    simp [brewInstallLoop, h1, h2]

/-- Closed instance of `c4_amended_bootstrap_failure_policy`. -/
theorem c4_amended_bootstrap_failure_policy_witness :
    (scoopInstallLoop ["git"] (fun _ => true) ["git", "pwsh"]).length = 2 ∧
    brewInstallLoop (fun _ => false) (fun _ => false) ["duckdb"] =
      ([PkgEvent.installAttempted "duckdb" false], false) := by
  have h := c4_amended_bootstrap_failure_policy ["git"] (fun _ => true)
    ["git", "pwsh"] (fun _ => false) (fun _ => false) "duckdb" []
  exact ⟨h.1, h.2 rfl rfl⟩

/-- C5 counterexample: with the AI CLI package absent and its bun install
failing, installBunGlobals throws out of the sub-step; main stops after
installMiseTools, so the profile-configuration, summary and SSH sub-steps do
not run — a failure inside one sub-step does prevent the remaining sub-steps. -/
theorem c5_counterexample_bun_failure_stops_main :
    installBunGlobalsRun (fun _ => false) (fun _ => false)
      ["@anthropic-ai/claude-code"] = Except.error "@anthropic-ai/claude-code" ∧
    setupMainSteps ⟨["uv@latest"], ["@anthropic-ai/claude-code"]⟩ (fun _ => none)
      (fun _ => true) (fun _ => false) (fun _ => false) =
      ["installMiseTools"] := by
  constructor <;> rfl

/-- C5 amended: tool installation is independently failure-tolerant — every
tool yields exactly one event because per-tool errors are caught inside the
loop — but the sub-steps are not isolated from one another: when a bun global
install throws, main stops after installMiseTools and the profile, summary and
SSH sub-steps never run; only when no sub-step throws do all five run. -/
theorem c5_amended_substep_failure_policy (cfg : Config)
    (miseList : String → Option String)
    (miseInstallOk cmdExists bunInstallOk : String → Bool) :
    (installMiseToolsRun cfg.mise_tools miseList miseInstallOk).length =
      cfg.mise_tools.length ∧
    (∀ e, installBunGlobalsRun cmdExists bunInstallOk cfg.bun_global =
        Except.error e →
      setupMainSteps cfg miseList miseInstallOk cmdExists bunInstallOk =
        ["installMiseTools"]) ∧
    (∀ l, installBunGlobalsRun cmdExists bunInstallOk cfg.bun_global =
        Except.ok l →
      setupMainSteps cfg miseList miseInstallOk cmdExists bunInstallOk =
        ["installMiseTools", "installBunGlobals", "configureProfiles",
         "showSummary", "setupSSHKey"]) := by
  refine ⟨by simp [installMiseToolsRun], ?_, ?_⟩
  · intro e he
    simp [setupMainSteps, he]
  · intro l hl
    simp [setupMainSteps, hl]

/-- Closed instance of `c5_amended_substep_failure_policy`: with no bun global
configured the bun step cannot throw and all five sub-steps run. -/
theorem c5_amended_substep_failure_policy_witness :
    (installMiseToolsRun ["uv@latest"] (fun _ => none) (fun _ => false)).length = 1 ∧
    setupMainSteps ⟨["uv@latest"], []⟩ (fun _ => none) (fun _ => false)
      (fun _ => false) (fun _ => false) =
      ["installMiseTools", "installBunGlobals", "configureProfiles",
       "showSummary", "setupSSHKey"] := by
  have h := c5_amended_substep_failure_policy ⟨["uv@latest"], []⟩ (fun _ => none)
    (fun _ => false) (fun _ => false) (fun _ => false)
  exact ⟨h.1, h.2.2 [] rfl⟩

/-- C7: on opt-in with an existing key pair at the fixed path, setupSSHKey
reports the existing key and never invokes key generation; on decline, or on
opt-in with an empty label, generation is skipped and the step completes
normally. -/
theorem c7_ssh_key_setup (response email : String) :
    (sshOptIn response = true →
      setupSSHKeyRun response true email =
        [SshEvent.existingKeyFound, SshEvent.displayedPubKey] ∧
      invokesKeygen (setupSSHKeyRun response true email) = false) ∧
    (sshOptIn response = false → ∀ pubKeyExists,
      setupSSHKeyRun response pubKeyExists email = [SshEvent.skippedDeclined] ∧
      invokesKeygen (setupSSHKeyRun response pubKeyExists email) = false) ∧
    (sshOptIn response = true →
      setupSSHKeyRun response false "" = [SshEvent.skippedNoEmail] ∧
      invokesKeygen (setupSSHKeyRun response false "") = false) := by
  refine ⟨?_, ?_, ?_⟩
  · intro h
    constructor <;> simp [setupSSHKeyRun, h, invokesKeygen]
  · intro h pubKeyExists
    constructor <;> simp [setupSSHKeyRun, h, invokesKeygen]
  · intro h
    constructor <;> simp [setupSSHKeyRun, h, invokesKeygen]

/-- Closed instance of `c7_ssh_key_setup` at responses "Y", "n" and "". -/
theorem c7_ssh_key_setup_witness :
    setupSSHKeyRun "Y" true "user@example.com" =
      [SshEvent.existingKeyFound, SshEvent.displayedPubKey] ∧
    setupSSHKeyRun "n" false "user@example.com" = [SshEvent.skippedDeclined] ∧
    setupSSHKeyRun "" false "" = [SshEvent.skippedNoEmail] := by
  have hy := c7_ssh_key_setup "Y" "user@example.com"
  have hn := c7_ssh_key_setup "n" "user@example.com"
  have he := c7_ssh_key_setup "" ""
  exact ⟨(hy.1 (by decide)).1, (hn.2.1 (by decide) false).1,
    (he.2.2 (by decide)).1⟩

theorem normalizeModuleName_toList (name : String) :
    (normalizeModuleName name).toList =
      name.toList.map (fun c => if c = '-' then '_' else c) := rfl

/-- C8: init names the source module directory by replacing every hyphen of
the project name with an underscore — character-wise, leaving every other
character unchanged, so the module name contains no hyphen — while the
top-level directory and every other created path segment keep the literal
project name; in particular init "my-project" creates top-level directory
my-project containing source module directory my_project under src. -/
theorem c8_init_normalizes_module_dir_only (name : String) :
    (initTree name).all (fun path => path.headD "" == name) = true ∧
    (normalizeModuleName name).toList =
      name.toList.map (fun c => if c = '-' then '_' else c) ∧
    (normalizeModuleName name).toList.all (fun c => c != '-') = true ∧
    initTree "my-project" =
      [["my-project"], ["my-project", "data"], ["my-project", "notebooks"],
       ["my-project", "outputs"], ["my-project", "src", "my_project"]] := by
  refine ⟨by simp [initTree], rfl, ?_, by rfl⟩
  rw [normalizeModuleName_toList, List.all_map, List.all_eq_true]
  intro c _
  by_cases h : c = '-'
  · simp [Function.comp, h]
  · simp [Function.comp, h]

/-- C9: the publish CLI exits 0 on a fully successful run and exits nonzero
(code 1) both on a bump type outside patch/minor/major and on an unclean
working tree, in both failure cases without having written the version to
pyproject.toml. -/
theorem c9_publish_exit_codes (bumpType : String) (rest : List String)
    (statusOut : Option String) (gitOpsOk : Bool) :
    ((["patch", "minor", "major"].contains bumpType) = false →
      publishMain (bumpType :: rest) statusOut gitOpsOk = ⟨1, false⟩) ∧
    (checkGitStatus statusOut = false →
      publishMain (bumpType :: rest) statusOut gitOpsOk = ⟨1, false⟩) ∧
    ((["patch", "minor", "major"].contains bumpType) = true →
      checkGitStatus statusOut = true → gitOpsOk = true →
      publishMain (bumpType :: rest) statusOut gitOpsOk = ⟨0, true⟩) := by
  refine ⟨?_, ?_, ?_⟩
  · intro h
    show (if !(["patch", "minor", "major"].contains bumpType) then
        (⟨1, false⟩ : PublishOutcome)
      else if !checkGitStatus statusOut then ⟨1, false⟩
      else if gitOpsOk then ⟨0, true⟩ else ⟨1, true⟩) = ⟨1, false⟩
    rw [h]
    rfl
  · intro h
    show (if !(["patch", "minor", "major"].contains bumpType) then
        (⟨1, false⟩ : PublishOutcome)
      else if !checkGitStatus statusOut then ⟨1, false⟩
      else if gitOpsOk then ⟨0, true⟩ else ⟨1, true⟩) = ⟨1, false⟩
    cases hb : (["patch", "minor", "major"].contains bumpType)
    · rfl
    · rw [h]
      rfl
  · intro h1 h2 h3
    show (if !(["patch", "minor", "major"].contains bumpType) then
        (⟨1, false⟩ : PublishOutcome)
      else if !checkGitStatus statusOut then ⟨1, false⟩
      else if gitOpsOk then ⟨0, true⟩ else ⟨1, true⟩) = ⟨0, true⟩
    rw [h1, h2, h3]
    rfl

/-- Closed instance of `c9_publish_exit_codes`: invalid bump type "fix",
unclean tree on "patch", and a fully successful "patch" run. -/
theorem c9_publish_exit_codes_witness :
    publishMain ["fix"] (some "") true = ⟨1, false⟩ ∧
    publishMain ["patch"] (some " M scripts/publish.ts") true = ⟨1, false⟩ ∧
    publishMain ["patch"] (some "") true = ⟨0, true⟩ := by
  have h1 := c9_publish_exit_codes "fix" [] (some "") true
  have h2 := c9_publish_exit_codes "patch" [] (some " M scripts/publish.ts") true
  have h3 := c9_publish_exit_codes "patch" [] (some "") true
  exact ⟨h1.1 (by decide), h2.2.1 (by decide), h3.2.2 (by decide) (by decide) rfl⟩

end DangerousAI
